import Mathlib

/-!
Shallow embedding of the Multi-Timeframe Signal & Backtest Engine of
`src/ai-service/signal_api.py` (functions `regime_filters`, `directional_vote`,
`score_from_components`, `compute_signal_row`, `adaptive_sl_tp`,
`backtest_signals`, `optimize_params`), together with theorems settling the
frozen claims about it.

Modelling conventions:
* Python floats are idealized as exact rationals (`ℚ`); decimal literals such
  as `0.6` denote the exact decimal value.
* A pandas cell that may be NaN/missing is modelled as `Option ℚ`
  (`none` = undefined); `safe_num` returning `None` corresponds to `none`.
  Raw OHLC prices (`high`, `low`, `close`) are modelled as always finite.
* Python truthiness of a float (`if x:`) is modelled as "defined and nonzero".
* `round(x, 2)` is modelled as exact round-half-to-even at 2 decimals.
* Quantities the code obtains via `math.sqrt`/`np.std` (irrational in general)
  are kept symbolic in a `SqrtStat` value holding the exact rational data the
  code feeds to the square root; the guard logic around them is embedded
  exactly.  The float `inf` produced by `profit_factor` is the `PF.inf`
  constructor.
* Presentation-only outputs of `backtest_signals` (the `history` tail,
  ISO-formatted times, the seeded bootstrap resampling) are not embedded; no
  claim refers to them.
-/

unseal Rat.add Rat.mul Rat.sub Rat.inv Rat.ofScientific

namespace Cortexa

/-- Trade side, the values of the `side` column / return value. -/
inductive Side where
  | BUY
  | SELL
  | HOLD
deriving DecidableEq

/-- One enriched bar row, as consumed by `regime_filters`, `directional_vote`
and (via the aligned frames) by the backtest.  Fields that the indicator
pipeline may leave as NaN are `Option ℚ`; flag columns are `Bool`
(`squeeze_on` from the Keltner/Bollinger comparison, `donchian_break_up/dn`
from the 0/1 int columns).  `weekday` models `index.day_name()` of the row
timestamp. -/
structure Row where
  high : ℚ := 0
  low : ℚ := 0
  close : ℚ := 0
  emaFast : Option ℚ := none
  emaSlow : Option ℚ := none
  emaFastSlope : Option ℚ := none
  emaSlowSlope : Option ℚ := none
  macdHist : Option ℚ := none
  rsi : Option ℚ := none
  bbMid : Option ℚ := none
  bbWidth : Option ℚ := none
  squeezeOn : Bool := false
  distFromMidAtr : Option ℚ := none
  atr : Option ℚ := none
  atrPct : Option ℚ := none
  adx : Option ℚ := none
  mfi : Option ℚ := none
  cmf : Option ℚ := none
  chop : Option ℚ := none
  stochRsiK : Option ℚ := none
  stochRsiD : Option ℚ := none
  vwap : Option ℚ := none
  donchianBreakUp : Bool := false
  donchianBreakDn : Bool := false
  obvSlope : Option ℚ := none
  vwapDevAtr : Option ℚ := none
deriving DecidableEq

/-- Embeds `regime_filters(row)`: the pair `(adx_ok, vol_ok)`. -/
def regimeFilters (row : Row) : Bool × Bool :=
  let adxOk : Bool := match row.adx with
    | some a => decide ((12 : ℚ) ≤ a)
    | none => false
  let volOk0 : Bool := match row.atrPct with
    | some p => decide ((0.0005 : ℚ) ≤ p ∧ p ≤ 0.04)
    | none => false
  let volOk1 : Bool := if row.squeezeOn then false else volOk0
  let volOk2 : Bool := match row.distFromMidAtr with
    | none => false
    | some d => if d < 0.15 then false else volOk1
  let volOk3 : Bool := match row.bbWidth with
    | some w => if w < 0.01 ∨ 0.25 < w then false else volOk2
    | none => volOk2
  let volOk4 : Bool := match row.mfi, row.cmf with
    | some m, some c => if m < 35 ∧ c < 0 then false else volOk3
    | _, _ => volOk3
  let volOk5 : Bool := match row.chop with
    | some ch => if 61 < ch then false else volOk4
    | none => volOk4
  (adxOk, volOk5)

/-- EMA composite sub-vote of `directional_vote` (cross ±0.6, each slope
sign ±0.2, hard-capped to [-1, 1]). -/
def emaComponent (row : Row) : ℚ :=
  let c1 : ℚ := match row.emaFast, row.emaSlow with
    | some f, some s => if s < f then 0.6 else -0.6
    | _, _ => 0
  let c2 : ℚ := match row.emaFastSlope with
    | some sl => if 0 < sl then 0.2 else -0.2
    | none => 0
  let c3 : ℚ := match row.emaSlowSlope with
    | some sl => if 0 < sl then 0.2 else -0.2
    | none => 0
  let e := c1 + c2 + c3
  if 1 < e then 1 else if e < -1 then -1 else e

/-- MACD-histogram sub-vote (±1). -/
def macdComponent (row : Row) : ℚ :=
  match row.macdHist with
  | some h => if 0 < h then 1 else -1
  | none => 0

/-- RSI banding sub-vote (≥55: +0.5, ≤45: −0.5, else 0). -/
def rsiComponent (row : Row) : ℚ :=
  match row.rsi with
  | some r => if 55 ≤ r then 0.5 else if r ≤ 45 then -0.5 else 0
  | none => 0

/-- Close-vs-Bollinger-mid sub-vote (±0.5).  The source gates this on the
truthiness of `safe_num(bb_mid)` and `safe_num(close)`, so a zero mid or a
zero close contributes 0. -/
def bbComponent (row : Row) : ℚ :=
  match row.bbMid with
  | some m => if m ≠ 0 ∧ row.close ≠ 0 then (if m < row.close then 0.5 else -0.5) else 0
  | none => 0

/-- StochRSI extremity sub-vote (both > 0.8: −0.5; both < 0.2: +0.5). -/
def stochComponent (row : Row) : ℚ :=
  match row.stochRsiK, row.stochRsiD with
  | some k, some d =>
      if 0.8 < k ∧ 0.8 < d then -0.5
      else if k < 0.2 ∧ d < 0.2 then 0.5
      else 0
  | _, _ => 0

/-- Close-vs-VWAP sub-vote (±0.25); gated on definedness only. -/
def vwapComponent (row : Row) : ℚ :=
  match row.vwap with
  | some v => if v < row.close then 0.25 else -0.25
  | none => 0

/-- Donchian breakout sub-vote (up: +0.25, else down: −0.25). -/
def donchianComponent (row : Row) : ℚ :=
  if row.donchianBreakUp then 0.25
  else if row.donchianBreakDn then -0.25
  else 0

/-- OBV slope sub-vote (sign, ±0.2, exact zero contributes 0). -/
def obvComponent (row : Row) : ℚ :=
  match row.obvSlope with
  | some o => if 0 < o then 0.2 else if o < 0 then -0.2 else 0
  | none => 0

/-- VWAP-deviation extremity sub-vote (>1.5: −0.25, <−1.5: +0.25). -/
def devComponent (row : Row) : ℚ :=
  match row.vwapDevAtr with
  | some d => if 1.5 < d then -0.25 else if d < -1.5 then 0.25 else 0
  | none => 0

/-- Embeds `directional_vote(row)`: the sum of the nine independent signed
contributions accumulated by the source. -/
def directionalVote (row : Row) : ℚ :=
  emaComponent row + macdComponent row + rsiComponent row + bbComponent row +
    stochComponent row + vwapComponent row + donchianComponent row +
    obvComponent row + devComponent row

/-- clamp to [0, 1], as `max(0.0, min(1.0, x))`. -/
def clamp01 (x : ℚ) : ℚ := max 0 (min 1 x)

/-- the `norm` helper of `score_from_components`: `(v+3)/6` clamped. -/
def normVote (v : ℚ) : ℚ := clamp01 ((v + 3) / 6)

/-- Embeds `score_from_components(votes_base, votes_h1, votes_h4, adx_ok, vol_ok)`. -/
def scoreFromComponents (vb v1 v4 : ℚ) (adxOk volOk : Bool) : ℚ :=
  let align : ℚ :=
    if 0 < vb then (if 0 ≤ v1 then 0.25 else 0) + (if 0 ≤ v4 then 0.25 else 0)
    else if vb < 0 then (if v1 ≤ 0 then 0.25 else 0) + (if v4 ≤ 0 then 0.25 else 0)
    else 0
  let regime : ℚ := (if adxOk then 0.2 else -0.2) + (if volOk then 0.2 else -0.2)
  clamp01 (0.45 * normVote vb + 0.3 * normVote v1 + 0.15 * normVote v4 + align + regime)

/-- Embeds `compute_signal_row(base_row, h1_row, h4_row)`: the `(side, score)` pair,
including the HTF bias gates and the score-driven override of a HOLD. -/
def computeSignalRow (baseRow h1Row h4Row : Row) : Side × ℚ :=
  let adxOk := (regimeFilters baseRow).1
  let volOk := (regimeFilters baseRow).2
  let vBase := directionalVote baseRow
  let vH1 := directionalVote h1Row
  let vH4 := directionalVote h4Row
  let biasLong : Bool := decide ((0.5 : ℚ) ≤ vH1 ∧ (0.5 : ℚ) ≤ vH4)
  let biasShort : Bool := decide (vH1 ≤ (-0.5 : ℚ) ∧ vH4 ≤ (-0.5 : ℚ))
  let longGate : ℚ := if biasLong then -0.25 else -0.1
  let shortGate : ℚ := if biasShort then 0.25 else 0.1
  let side0 : Side :=
    if 0 < vBase ∧ longGate ≤ vH1 ∧ longGate ≤ vH4 ∧ adxOk = true ∧ volOk = true then
      Side.BUY
    else if vBase < 0 ∧ vH1 ≤ shortGate ∧ vH4 ≤ shortGate ∧ adxOk = true ∧ volOk = true then
      Side.SELL
    else Side.HOLD
  let score := scoreFromComponents vBase vH1 vH4 adxOk volOk
  let side1 : Side :=
    if side0 = Side.HOLD then
      if 0.6 ≤ score then Side.BUY
      else if score ≤ 0.4 then Side.SELL
      else Side.HOLD
    else side0
  (side1, score)

/-- Round-half-to-even of a rational to an integer (Python `round` on an exact
value). -/
def roundHalfEven (x : ℚ) : ℤ :=
  let f := ⌊x⌋
  let r := x - f
  if r < 1/2 then f
  else if 1/2 < r then f + 1
  else if f % 2 = 0 then f else f + 1

/-- Python `round(x, 2)` on the idealized exact value. -/
def pyRound2 (x : ℚ) : ℚ := (roundHalfEven (x * 100) : ℚ) / 100

/-- Embeds `adaptive_sl_tp(price, atr, side, adx, atr_pct)`.  The source guard is
`if not (price and atr and atr > 0)`: Python truthiness, so `price` must be
defined and nonzero (not positive), and `atr` defined, nonzero and > 0.
Similarly `adx and adx >= 20` and `atr_pct and atr_pct <= 0.02` use
truthiness of the first operand. -/
def adaptiveSlTp (price atr : Option ℚ) (side : Side) (adx atrPct : Option ℚ) :
    Option ℚ × Option ℚ :=
  match price, atr with
  | some p, some a =>
    if p ≠ 0 ∧ a ≠ 0 ∧ 0 < a then
      let tpK : ℚ := 2 + (match adx with
        | some x => if x ≠ 0 ∧ 20 ≤ x then 0.5 else 0
        | none => 0)
      let slK : ℚ := match atrPct with
        | some ap => if ap ≠ 0 ∧ ap ≤ 0.02 then 1.2 else 1.5
        | none => 1.5
      match side with
      | Side.BUY => (some (pyRound2 (p - slK * a)), some (pyRound2 (p + tpK * a)))
      | Side.SELL => (some (pyRound2 (p + slK * a)), some (pyRound2 (p - tpK * a)))
      | Side.HOLD => (none, none)
    else (none, none)
  | _, _ => (none, none)

/-- One row of the aligned data consumed by `backtest_signals`: the columns of
the signal history (`side`, `score`, `close`, `atr_pct`, `adx`) together with
the base-frame columns the event-driven mode reads at the same timestamp
(`high`, `low`, `atr`).  `weekday` models `index.day_name()` (0 = Monday); the
frames share one ordered index, modelled by list position. -/
structure SigRow where
  high : ℚ := 0
  low : ℚ := 0
  close : ℚ := 0
  atr : Option ℚ := none
  adx : Option ℚ := none
  atrPct : Option ℚ := none
  side : Side := Side.HOLD
  score : ℚ := 0
  weekday : Fin 7 := 0
deriving DecidableEq

/-- Execution mode of the backtest (`mode` parameter). -/
inductive Mode where
  | horizon
  | atrTpSl
deriving DecidableEq

/-- Which level was recorded as touched first. -/
inductive Hit where
  | TP
  | SL
deriving DecidableEq

/-- The first-touch scan of the event-driven mode: at the first bar where
either predicate holds, record TP if the TP predicate holds there (TP is
checked first on a same-bar tie), else SL. -/
def scanHits (path : List SigRow) (slP tpP : SigRow → Bool) : Option Hit :=
  match path with
  | [] => none
  | b :: rest =>
    if slP b || tpP b then some (if tpP b then Hit.TP else Hit.SL)
    else scanHits rest slP tpP

/-- SL-touch predicate of one forward bar (`low <= sl` for BUY,
`high >= sl` for SELL). -/
def touchSL (sideI : Side) (slv : ℚ) (b : SigRow) : Bool :=
  match sideI with
  | Side.BUY => decide (b.low ≤ slv)
  | Side.SELL => decide (slv ≤ b.high)
  | Side.HOLD => false

/-- TP-touch predicate of one forward bar (`high >= tp` for BUY,
`low <= tp` for SELL). -/
def touchTP (sideI : Side) (tpv : ℚ) (b : SigRow) : Bool :=
  match sideI with
  | Side.BUY => decide (tpv ≤ b.high)
  | Side.SELL => decide (b.low ≤ tpv)
  | Side.HOLD => false

/-- The forward bars scanned for a trade at position `startPos`:
`iloc[start_pos+1 : end_pos+1]` with `end_pos = min(start_pos+horizon, n-1)`. -/
def eventPath (frame : List SigRow) (startPos hz : ℕ) : List SigRow :=
  (frame.drop (startPos + 1)).take (min (startPos + hz) (frame.length - 1) - startPos)

/-- The recorded first hit for a trade of the event-driven mode: the scan runs
only when the side is BUY or SELL and both `sl` and `tp` are truthy (defined
and nonzero); otherwise the hit series is empty and no hit is found. -/
def eventFirstHit (frame : List SigRow) (startPos hz : ℕ) (sideI : Side) : Option Hit :=
  match frame.get? startPos with
  | none => none
  | some r0 =>
    match adaptiveSlTp (some r0.close) r0.atr sideI r0.adx r0.atrPct with
    | (some slv, some tpv) =>
      if (sideI = Side.BUY ∨ sideI = Side.SELL) ∧ slv ≠ 0 ∧ tpv ≠ 0 then
        scanHits (eventPath frame startPos hz) (touchSL sideI slv) (touchTP sideI tpv)
      else none
    | _ => none

/-- The gross return realized by the event-driven (`atr_tp_sl`) mode for a
trade entered at `startPos`: TP move on a TP hit, SL move on an SL hit, else
the move to the close of the last scanned bar (or the entry price when no bar
is scanned), signed by direction. -/
def eventGross (frame : List SigRow) (startPos hz : ℕ) (sideI : Side) : ℚ :=
  match frame.get? startPos with
  | none => 0
  | some r0 =>
    let priceI := r0.close
    let levels := adaptiveSlTp (some priceI) r0.atr sideI r0.adx r0.atrPct
    let path := eventPath frame startPos hz
    match eventFirstHit frame startPos hz sideI, levels with
    | some Hit.TP, (_, some tpv) =>
      if sideI = Side.BUY then (tpv - priceI) / priceI else (priceI - tpv) / priceI
    | some Hit.SL, (some slv, _) =>
      if sideI = Side.BUY then (slv - priceI) / priceI else (priceI - slv) / priceI
    | _, _ =>
      let closeH := match path.getLast? with
        | some b => b.close
        | none => priceI
      if sideI = Side.BUY then (closeH - priceI) / priceI else (priceI - closeH) / priceI

/-- The `direction` mapping: BUY to 1, SELL to -1. -/
def dirOf (s : Side) : ℚ :=
  match s with
  | Side.BUY => 1
  | Side.SELL => -1
  | Side.HOLD => 0

/-- The forward return `close.shift(-horizon)/close - 1` at position `i`
(`none` where the shifted close does not exist, i.e. the trailing rows that
`dropna` removes). -/
def fwdReturnAt (rows : List SigRow) (i hz : ℕ) : Option ℚ :=
  match rows.get? (i + hz), rows.get? i with
  | some rj, some ri => if i + hz < rows.length then some (rj.close / ri.close - 1) else none
  | _, _ => none

/-- Row selection of the backtest: side in {BUY, SELL}, score ≥ threshold, and
a defined forward return. -/
def isActive (rows : List SigRow) (th : ℚ) (hz : ℕ) (i : ℕ) : Bool :=
  match rows.get? i with
  | some r =>
    decide ((r.side = Side.BUY ∨ r.side = Side.SELL) ∧ th ≤ r.score) && decide (i + hz < rows.length)
  | none => false

/-- One simulated trade (a row of the `active` frame after the return and cost
columns are added). -/
structure Trade where
  idx : ℕ
  side : Side
  score : ℚ
  direction : ℚ
  fwdReturn : ℚ
  grossReturn : ℚ
  costReturn : ℚ
  netReturn : ℚ
  grossValue : ℚ
  netValue : ℚ
  atrPct : Option ℚ
  adx : Option ℚ
  weekday : Fin 7
deriving DecidableEq

/-- fallback row used for (never-taken) out-of-range list reads. -/
def dRow : SigRow := {}

/-- The gross return of the horizon mode: `direction * fwd_return`. -/
def horizonGross (rows : List SigRow) (i hz : ℕ) (sideI : Side) : ℚ :=
  dirOf sideI * ((fwdReturnAt rows i hz).getD 0)

/-- Build the trade record for an active row at position `i`. -/
def mkTrade (rows : List SigRow) (hz : ℕ) (commissionBps slippageBps pos : ℚ)
    (mode : Mode) (i : ℕ) : Trade :=
  let r := rows.getD i dRow
  let gross : ℚ :=
    match mode with
    | Mode.horizon => horizonGross rows i hz r.side
    | Mode.atrTpSl => eventGross rows i hz r.side
  let cost : ℚ := (commissionBps * 2 + slippageBps * 2) / 10000
  let net := gross - cost
  { idx := i
    side := r.side
    score := r.score
    direction := dirOf r.side
    fwdReturn := (fwdReturnAt rows i hz).getD 0
    grossReturn := gross
    costReturn := cost
    netReturn := net
    grossValue := gross * pos
    netValue := net * pos
    atrPct := r.atrPct
    adx := r.adx
    weekday := r.weekday }

/-- The `active` frame of `backtest_signals`, in chronological order. -/
def activeTrades (rows : List SigRow) (th : ℚ) (hz : ℕ)
    (commissionBps slippageBps pos : ℚ) (mode : Mode) : List Trade :=
  ((List.range rows.length).filter (isActive rows th hz)).map
    (mkTrade rows hz commissionBps slippageBps pos mode)

/-- A `profit_factor` value: a nonnegative rational or the float `inf`. -/
inductive PF where
  | fin : ℚ → PF
  | inf : PF
deriving DecidableEq

/-- Compares `pf >= t` on the float value (`inf` compares greater). -/
def PF.geQ : PF → ℚ → Bool
  | PF.fin q, t => decide (t ≤ q)
  | PF.inf, _ => true

/-- Embeds `float(np.mean(pfs)) if pfs else 0.0` over profit-factor values: any
`inf` makes the mean `inf` (all values are nonnegative). -/
def pfMean (l : List PF) : PF :=
  if l.isEmpty then PF.fin 0
  else if l.any (fun p => decide (p = PF.inf)) then PF.inf
  else PF.fin (((l.map (fun p => match p with | PF.fin q => q | PF.inf => 0)).sum) / l.length)

/-- Sum of the positive `net_value` entries. -/
def winsValue (tl : List Trade) : ℚ :=
  ((tl.map Trade.netValue).filter (fun v => decide (0 < v))).sum

/-- Sum of the negative `net_value` entries. -/
def lossesValue (tl : List Trade) : ℚ :=
  ((tl.map Trade.netValue).filter (fun v => decide (v < 0))).sum

/-- The profit-factor computation of `backtest_signals`: starts at 0.0, and is
only recomputed when there are trades and the losing value is strictly
negative; then it is `|wins|/|losses|`, or `inf` when `|losses| <= 1e-12`. -/
def profitFactorOf (n : ℕ) (wv lv : ℚ) : PF :=
  if n ≠ 0 ∧ lv < 0 then
    (if 1e-12 < |lv| then PF.fin (|wv| / |lv|) else PF.inf)
  else PF.fin 0

/-- A statistic whose final value the code obtains through a float square
root; the constructor records the exact rational data fed to it, and `zero`
is the 0.0 default.  `sharpeVal n m v` stands for `√n · m / √v`,
`sortinoVal m v` for `m / √v`, and `stdVal v` for `√v`. -/
inductive SqrtStat where
  | zero
  | sharpeVal (n : ℕ) (mean variance : ℚ)
  | sortinoVal (mean downsideVariance : ℚ)
  | stdVal (variance : ℚ)
deriving DecidableEq

/-- Mean of a list of rationals (0 on empty, matching the guarded uses). -/
def meanQ (l : List ℚ) : ℚ := if l.isEmpty then 0 else l.sum / l.length

/-- Population variance `np.std(l)^2` (0 on empty). -/
def varQ (l : List ℚ) : ℚ :=
  if l.isEmpty then 0 else (l.map (fun x => (x - meanQ l) ^ 2)).sum / l.length

/-- Running products of `1 + x` (the compounded equity curve). -/
def cumprod1p (l : List ℚ) : List ℚ :=
  (l.foldl (fun acc x => ((acc.headD 1) * (1 + x)) :: acc) []).reverse

/-- Running maxima of a list. -/
def runningMax (l : List ℚ) : List ℚ :=
  match l with
  | [] => []
  | h :: t => (t.foldl (fun acc x => (max (acc.headD h) x) :: acc) [h]).reverse

/-- Minimum of a list (0 on empty, matching the trades-guarded use). -/
def minQ (l : List ℚ) : ℚ :=
  match l with
  | [] => 0
  | h :: t => t.foldl min h

/-- The `max_drawdown` statistic: minimum of `(equity - running_max)/running_max` over the
compounded equity curve. -/
def maxDrawdownOf (netReturns : List ℚ) : ℚ :=
  let equity := cumprod1p netReturns
  let rm := runningMax equity
  minQ (List.zipWith (fun e m => (e - m) / m) equity rm)

/-- Embeds `np.quantile(..., p)` with the default linear interpolation, on a sorted
list. -/
def quantileAt (sorted : List ℚ) (p : ℚ) : ℚ :=
  match sorted with
  | [] => 0
  | _ =>
    let n := sorted.length
    let h : ℚ := p * ((n : ℚ) - 1)
    let lo := (⌊h⌋).toNat
    let x0 := sorted.getD lo 0
    let x1 := sorted.getD (lo + 1) x0
    x0 + (h - (lo : ℚ)) * (x1 - x0)

/-- The five reported quantiles of `net_return`. -/
structure Quantiles where
  p05 : ℚ
  p25 : ℚ
  p50 : ℚ
  p75 : ℚ
  p95 : ℚ
deriving DecidableEq

/-- Per-side summary of the `side_breakdown`. -/
structure SideSummary where
  trades : ℕ := 0
  netReturnSum : ℚ := 0
  hitRate : ℚ := 0
  avgReturn : ℚ := 0
  avgScore : ℚ := 0
deriving DecidableEq

/-- The `empty_side_summary()` record. -/
def emptySideSummary : SideSummary := {}

/-- Embeds `build_side_summary` over a trade subset (empty subset yields the empty
summary). -/
def sideSummaryOf (subset : List Trade) : SideSummary :=
  if subset.isEmpty then emptySideSummary
  else
    { trades := subset.length
      netReturnSum := (subset.map Trade.netReturn).sum
      hitRate := ((subset.filter (fun t => decide (0 < t.netValue))).length : ℚ) / subset.length
      avgReturn := meanQ (subset.map Trade.netReturn)
      avgScore := meanQ (subset.map Trade.score) }

/-- One weekday row of the `weekday_breakdown` (`day` is 0 = Monday). -/
structure DayStats where
  day : Fin 7
  trades : ℕ
  netReturnSum : ℚ
  hitRate : ℚ
  avgReturn : ℚ
deriving DecidableEq

/-- The weekday breakdown: one entry per weekday with at least one trade, in
Monday..Sunday order; only built on a datetime index. -/
def weekdayBreakdownOf (dtIdx : Bool) (tl : List Trade) : List DayStats :=
  if dtIdx then
    (List.finRange 7).filterMap (fun d =>
      let grp := tl.filter (fun t => decide (t.weekday = d))
      if grp.isEmpty then none
      else some
        { day := d
          trades := grp.length
          netReturnSum := (grp.map Trade.netReturn).sum
          hitRate := ((grp.filter (fun t => decide (0 < t.netValue))).length : ℚ) / grp.length
          avgReturn := meanQ (grp.map Trade.netReturn) })
  else []

/-- Volatility-regime bucket of `pd.cut(atr_pct, [0, 0.01, 0.02, inf])` with
NaN (undefined or out-of-bins) filled as `unknown`. -/
inductive VolRegime where
  | low
  | medium
  | high
  | unknown
deriving DecidableEq

/-- Bucket an `atr_pct` value. -/
def volRegimeOf (p : Option ℚ) : VolRegime :=
  match p with
  | some v =>
    if v < 0 then VolRegime.unknown
    else if v ≤ 0.01 then VolRegime.low
    else if v ≤ 0.02 then VolRegime.medium
    else VolRegime.high
  | none => VolRegime.unknown

/-- Trend-regime bucket: strong iff adx is defined and ≥ 20. -/
inductive TrendRegime where
  | strong
  | weak
deriving DecidableEq

/-- Bucket an `adx` value. -/
def trendRegimeOf (a : Option ℚ) : TrendRegime :=
  match a with
  | some v => if 20 ≤ v then TrendRegime.strong else TrendRegime.weak
  | none => TrendRegime.weak

/-- One row of `regime_metrics`. -/
structure RegimeStats where
  volRegime : VolRegime
  trendRegime : TrendRegime
  trades : ℕ
  netReturnSum : ℚ
  hitRate : ℚ
deriving DecidableEq

/-- The (vol_regime, trend_regime) group rows, for the non-empty groups. -/
def regimeMetricsOf (tl : List Trade) : List RegimeStats :=
  if tl.isEmpty then []
  else
    ([VolRegime.low, VolRegime.medium, VolRegime.high, VolRegime.unknown].flatMap
      (fun vr => [TrendRegime.strong, TrendRegime.weak].map (fun tr => (vr, tr)))).filterMap
      (fun p =>
        let grp := tl.filter (fun t =>
          decide (volRegimeOf t.atrPct = p.1) && decide (trendRegimeOf t.adx = p.2))
        if grp.isEmpty then none
        else some
          { volRegime := p.1
            trendRegime := p.2
            trades := grp.length
            netReturnSum := (grp.map Trade.netReturn).sum
            hitRate := ((grp.filter (fun t => decide (0 < t.netValue))).length : ℚ) / grp.length })

/-- Score bucket of `pd.cut(score, arange(0.3, 1.01, 0.1))` (7 bins, lowest
included); `none` is the NaN/`unknown` group. -/
def scoreBucketOf (s : ℚ) : Option (Fin 7) :=
  if s < 0.3 ∨ 1 < s then none
  else if s ≤ 0.4 then some 0
  else if s ≤ 0.5 then some 1
  else if s ≤ 0.6 then some 2
  else if s ≤ 0.7 then some 3
  else if s ≤ 0.8 then some 4
  else if s ≤ 0.9 then some 5
  else some 6

/-- One row of `score_buckets` (`bucket = none` is the `unknown` group). -/
structure BucketStats where
  bucket : Option (Fin 7)
  trades : ℕ
  netReturnAvg : ℚ
  hitRate : ℚ
deriving DecidableEq

/-- The score-bucket group rows, for the non-empty groups. -/
def scoreBucketsOf (tl : List Trade) : List BucketStats :=
  if tl.isEmpty then []
  else
    ((List.finRange 7).map (fun b => some b) ++ [none]).filterMap
      (fun b =>
        let grp := tl.filter (fun (t : Trade) => decide (scoreBucketOf t.score = b))
        if grp.isEmpty then none
        else some
          { bucket := b
            trades := grp.length
            netReturnAvg := meanQ (grp.map Trade.netReturn)
            hitRate := ((grp.filter (fun (t : Trade) => decide (0 < t.netValue))).length : ℚ) / grp.length })

/-- Longest win/loss streaks over `net_value` in chronological order. -/
def streaksOf (vals : List ℚ) : ℕ × ℕ :=
  let final := vals.foldl
    (fun (st : ℕ × ℕ × ℕ × ℕ) (v : ℚ) =>
      let (lw, ll, cw, cl) := st
      if 0 < v then (max lw (cw + 1), ll, cw + 1, 0)
      else if v < 0 then (lw, max ll (cl + 1), 0, cl + 1)
      else (lw, ll, 0, 0))
    (0, 0, 0, 0)
  (final.1, final.2.1)

/-- The `exposure` block (15-minute base bars). -/
structure Exposure where
  bars : ℕ
  minutes : ℚ
  hours : ℚ
  days : ℚ
  frac : ℚ
deriving DecidableEq

/-- Build the exposure block from the trade count, horizon and request limit. -/
def exposureOf (trades hz limit : ℕ) : Exposure :=
  let bars := trades * hz
  let minutes : ℚ := (bars : ℚ) * 15
  { bars := bars
    minutes := minutes
    hours := if minutes ≠ 0 then minutes / 60 else 0
    days := if minutes ≠ 0 then minutes / 1440 else 0
    frac := if 0 < limit then (bars : ℚ) / (limit : ℚ) else 0 }

/-- Cumulative sums (the additive equity-curve series `cum_net_value`). -/
def cumsum (l : List ℚ) : List ℚ :=
  (l.foldl (fun acc x => ((acc.headD 0) + x) :: acc) []).reverse

/-- The aggregate backtest report (presentation-only members omitted, see the
file header). -/
structure Report where
  threshold : ℚ
  limit : ℕ
  horizon : ℕ
  commissionBps : ℚ
  slippageBps : ℚ
  positionSize : ℚ
  trades : ℕ
  grossValueSum : ℚ
  netValueSum : ℚ
  grossReturnSum : ℚ
  netReturnSum : ℚ
  hitRate : ℚ
  costReturn : ℚ
  sharpe : SqrtStat
  sortino : SqrtStat
  maxDrawdown : ℚ
  avgWin : ℚ
  avgLoss : ℚ
  expectancy : ℚ
  profitFactor : PF
  winLoss : ℚ
  medianReturn : ℚ
  returnStd : SqrtStat
  returnQuantiles : Option Quantiles
  sideBreakdown : SideSummary × SideSummary
  weekdayBreakdown : List DayStats
  streaks : ℕ × ℕ
  exposure : Exposure
  regimeMetrics : List RegimeStats
  scoreBuckets : List BucketStats
  equityCurve : List ℚ
  tradeList : List Trade

/-- Embeds `backtest_signals` on a precomputed signal history (the fetch/generate
step is I/O and out of the embedding; `dtIdx` records whether the frame
index is a DatetimeIndex). -/
def backtestSignals (rows : List SigRow) (th : ℚ) (limit hz : ℕ)
    (commissionBps slippageBps pos : ℚ) (mode : Mode) (dtIdx : Bool) : Report :=
  let tl := activeTrades rows th hz commissionBps slippageBps pos mode
  let n := tl.length
  let netReturns := tl.map Trade.netReturn
  let netValues := tl.map Trade.netValue
  let costReturn : ℚ := (commissionBps * 2 + slippageBps * 2) / 10000
  let wins := netReturns.filter (fun v => decide (0 < v))
  let losses := netReturns.filter (fun v => decide (v < 0))
  let avgWin : ℚ := if wins.isEmpty then 0 else meanQ wins
  let avgLoss : ℚ := if losses.isEmpty then 0 else meanQ losses
  let sorted := netReturns.insertionSort (fun a b => a ≤ b)
  { threshold := th
    limit := limit
    horizon := hz
    commissionBps := commissionBps
    slippageBps := slippageBps
    positionSize := pos
    trades := n
    grossValueSum := if n ≠ 0 then (tl.map Trade.grossValue).sum else 0
    netValueSum := if n ≠ 0 then netValues.sum else 0
    grossReturnSum := if n ≠ 0 then (tl.map Trade.grossReturn).sum else 0
    netReturnSum := if n ≠ 0 then netReturns.sum else 0
    hitRate := if n ≠ 0 then ((netValues.filter (fun v => decide (0 < v))).length : ℚ) / n else 0
    costReturn := costReturn
    sharpe :=
      if n ≠ 0 ∧ 1e-16 < varQ netReturns then
        SqrtStat.sharpeVal n (meanQ netReturns) (varQ netReturns)
      else SqrtStat.zero
    sortino :=
      if n ≠ 0 ∧ ¬losses.isEmpty ∧ 1e-16 < varQ losses then
        SqrtStat.sortinoVal (meanQ netReturns) (varQ losses)
      else SqrtStat.zero
    maxDrawdown := if n ≠ 0 then maxDrawdownOf netReturns else 0
    avgWin := if n ≠ 0 then avgWin else 0
    avgLoss := if n ≠ 0 then avgLoss else 0
    expectancy := if n ≠ 0 then meanQ netReturns else 0
    profitFactor := profitFactorOf n (winsValue tl) (lossesValue tl)
    winLoss :=
      if n ≠ 0 ∧ avgLoss < -1e-12 then
        (if avgWin ≠ 0 then |avgWin / avgLoss| else 0)
      else 0
    medianReturn := if n ≠ 0 then quantileAt sorted 0.5 else 0
    returnStd := if n ≠ 0 then SqrtStat.stdVal (varQ netReturns) else SqrtStat.zero
    returnQuantiles :=
      if n ≠ 0 then
        some
          { p05 := quantileAt sorted 0.05
            p25 := quantileAt sorted 0.25
            p50 := quantileAt sorted 0.5
            p75 := quantileAt sorted 0.75
            p95 := quantileAt sorted 0.95 }
      else none
    sideBreakdown :=
      (sideSummaryOf (tl.filter (fun t => decide (t.side = Side.BUY))),
       sideSummaryOf (tl.filter (fun t => decide (t.side = Side.SELL))))
    weekdayBreakdown := if n ≠ 0 then weekdayBreakdownOf dtIdx tl else []
    streaks := streaksOf netValues
    exposure := exposureOf n hz limit
    regimeMetrics := regimeMetricsOf tl
    scoreBuckets := scoreBucketsOf tl
    equityCurve := cumsum netValues
    tradeList := tl }

/-- One cell of the optimizer grid, as scored for selection. -/
structure Candidate where
  threshold : ℚ
  horizon : ℕ
  trades : ℕ
  hitRate : ℚ
  profitFactor : PF
  netReturnSum : ℚ
deriving DecidableEq

/-- The walk-forward gate of `optimize_params`:
`walkforward and isinstance(idx, DatetimeIndex) and len(idx) > folds*50`. -/
def usesWalkForward (walkforward dtIdx : Bool) (nRows folds : ℕ) : Bool :=
  walkforward && dtIdx && decide (folds * 50 < nRows)

/-- Cut point `j` of `np.linspace(0, n, folds+1, dtype=int)` (the float value
`j·n/folds` truncated to an integer). -/
def cutPoint (n folds j : ℕ) : ℕ := j * n / folds

/-- The `i`-th contiguous fold range of the history (label slicing on a
unique ordered index is inclusive of both cut rows). -/
def foldSlice (rows : List SigRow) (folds i : ℕ) : List SigRow :=
  (rows.drop (cutPoint rows.length folds i)).take
    (cutPoint rows.length folds (i + 1) - cutPoint rows.length folds i)

/-- The `fold_ranges` value: the fold slices when the walk-forward gate passed, the
(falsy) empty list otherwise. -/
def foldSlicesOf (rows : List SigRow) (wfUsed : Bool) (folds : ℕ) : List (List SigRow) :=
  if wfUsed then (List.range folds).map (foldSlice rows folds) else []

/-- Project a backtest report to the candidate record tracked per cell. -/
def candOf (th : ℚ) (hz : ℕ) (r : Report) : Candidate :=
  { threshold := th
    horizon := hz
    trades := r.trades
    hitRate := r.hitRate
    profitFactor := r.profitFactor
    netReturnSum := r.netReturnSum }

/-- Whole-history evaluation of one grid cell (`eval_candidate` once). -/
def evalCellWhole (rows : List SigRow) (limit : ℕ) (c s pos : ℚ) (mode : Mode)
    (dtIdx : Bool) (th : ℚ) (hz : ℕ) : Candidate :=
  candOf th hz (backtestSignals rows th limit hz c s pos mode dtIdx)

/-- Walk-forward evaluation of one grid cell: folds shorter than 100 rows are
skipped; trades and net sums are added, hit rate and profit factor are
averaged over the evaluated folds (0 when every fold was skipped). -/
def evalCellFolds (slices : List (List SigRow)) (limit : ℕ) (c s pos : ℚ)
    (mode : Mode) (dtIdx : Bool) (th : ℚ) (hz : ℕ) : Candidate :=
  let results := (slices.filter (fun sl => decide (100 ≤ sl.length))).map
    (fun sl => backtestSignals sl th limit hz c s pos mode dtIdx)
  { threshold := th
    horizon := hz
    trades := (results.map Report.trades).sum
    hitRate := if results.isEmpty then 0 else (results.map Report.hitRate).sum / results.length
    profitFactor := pfMean (results.map Report.profitFactor)
    netReturnSum := (results.map Report.netReturnSum).sum }

/-- The preferred-candidate filter: hit rate at target, enough trades, profit
factor at least 1.3. -/
def qualifies (tgt : ℚ) (mt : ℕ) (cd : Candidate) : Bool :=
  decide (tgt ≤ cd.hitRate) && decide (mt ≤ cd.trades) && cd.profitFactor.geQ 1.3

/-- Selection accumulator: the best qualifying candidate, the closest-to-target
candidate, and the gap of the latter (`best_hit_gap`, initially 1.0). -/
structure SelState where
  best : Option Candidate
  closest : Option Candidate
  bestHitGap : ℚ

/-- The `closest`/`best_hit_gap` update of one selection step: take the new
cell when there is no incumbent, when its gap is strictly smaller, or when its
gap is within 1e-9 of the incumbent gap and its net sum strictly larger. -/
def closestStep (tgt : ℚ) (st : SelState) (cand : Candidate) : SelState :=
  let gap := |cand.hitRate - tgt|
  match st.closest with
  | none => { st with closest := some cand, bestHitGap := gap }
  | some cl =>
    if gap < st.bestHitGap ∨ (|gap - st.bestHitGap| < 1e-9 ∧ cl.netReturnSum < cand.netReturnSum)
    then { st with closest := some cand, bestHitGap := gap }
    else st

/-- One step of the selection scan, exactly as the source updates `closest`
and then `best` (a qualifying cell with strictly larger net sum). -/
def selStep (tgt : ℚ) (mt : ℕ) (st : SelState) (cand : Candidate) : SelState :=
  let st1 := closestStep tgt st cand
  if qualifies tgt mt cand then
    match st1.best with
    | none => { st1 with best := some cand }
    | some b =>
      if b.netReturnSum < cand.netReturnSum then { st1 with best := some cand } else st1
  else st1

/-- The grid in evaluation order: `for hz in horizons: for th in thresholds`. -/
def gridCells (thresholds : List ℚ) (horizons : List ℕ) : List (ℚ × ℕ) :=
  horizons.flatMap (fun hz => thresholds.map (fun th => (th, hz)))

/-- The zero-filled placeholder candidate (first threshold / first horizon;
the source `thresholds[0]` on an empty list is modelled by the 0 default,
unreachable for the non-empty grids the claims quantify over). -/
def placeholderCand (thresholds : List ℚ) (horizons : List ℕ) : Candidate :=
  { threshold := thresholds.headD 0
    horizon := horizons.headD 0
    trades := 0
    hitRate := 0
    profitFactor := PF.fin 0
    netReturnSum := 0 }

/-- Embeds `return best or (closest or placeholder)`. -/
def selectCandidate (cands : List Candidate) (tgt : ℚ) (mt : ℕ)
    (fallback : Candidate) : Candidate :=
  let st := cands.foldl (selStep tgt mt) ⟨none, none, 1⟩
  match st.best with
  | some b => b
  | none =>
    match st.closest with
    | some c => c
    | none => fallback

/-- The candidate evaluated for each grid cell, in evaluation order (per fold
when the walk-forward ranges are non-empty, over the whole history
otherwise). -/
def optimizerCells (rows : List SigRow) (dtIdx : Bool) (thresholds : List ℚ)
    (horizons : List ℕ) (limit : ℕ) (c s pos : ℚ) (mode : Mode)
    (walkforward : Bool) (folds : ℕ) : List Candidate :=
  let slices := foldSlicesOf rows (usesWalkForward walkforward dtIdx rows.length folds) folds
  (gridCells thresholds horizons).map (fun p =>
    if slices.isEmpty then evalCellWhole rows limit c s pos mode dtIdx p.1 p.2
    else evalCellFolds slices limit c s pos mode dtIdx p.1 p.2)

/-- Embeds `optimize_params` on a precomputed signal history. -/
def optimizeParams (rows : List SigRow) (dtIdx : Bool) (thresholds : List ℚ)
    (horizons : List ℕ) (limit : ℕ) (c s pos : ℚ) (targetHit : ℚ)
    (minTrades : ℕ) (mode : Mode) (walkforward : Bool) (folds : ℕ) : Candidate :=
  selectCandidate
    (optimizerCells rows dtIdx thresholds horizons limit c s pos mode walkforward folds)
    targetHit minTrades (placeholderCand thresholds horizons)

/-- Modelled from the spec §4.2 (for the refinement comparison of the
adaptive stop/take-profit formula): "requires price>0 and atr>0, else
(null, null). tp_multiple = 2.0 + (0.5 if adx≥20 else 0); sl_multiple = 1.2
if atr_pct ≤ 0.02 else 1.5. BUY: sl = price − sl_multiple·atr, tp = price +
tp_multiple·atr. SELL: mirrored." — amended as the counterexample forces: the
price guard is truthiness (nonzero, not positive), a zero or undefined
atr_pct selects the 1.5 multiple, and the results are rounded half-to-even
at 2 decimals. -/
def adaptiveSlTpSpec (price atr : Option ℚ) (side : Side) (adx atrPct : Option ℚ) :
    Option ℚ × Option ℚ :=
  match price, atr with
  | some p, some a =>
    if p = 0 ∨ a ≤ 0 then (none, none)
    else
      let tpK : ℚ := 2 + (if (match adx with | some x => decide (20 ≤ x) | none => false)
        then 0.5 else 0)
      let slK : ℚ := if (match atrPct with
        | some ap => decide (ap ≠ 0 ∧ ap ≤ 0.02)
        | none => false) then 1.2 else 1.5
      match side with
      | Side.BUY => (some (pyRound2 (p - slK * a)), some (pyRound2 (p + tpK * a)))
      | Side.SELL => (some (pyRound2 (p + slK * a)), some (pyRound2 (p - tpK * a)))
      | Side.HOLD => (none, none)
  | _, _ => (none, none)

/-! Concrete inputs used by the counterexamples and witnesses. -/

/-- A base row with a strong bullish vote (3.7) whose `atr_pct` of 0 fails
the volatility gate while `adx = 30` passes the trend gate. -/
def exRowC1 : Row :=
  { close := 2, emaFast := some 2, emaSlow := some 1, emaFastSlope := some 1,
    emaSlowSlope := some 1, macdHist := some 1, rsi := some 60, bbMid := some 1,
    atrPct := some 0, adx := some 30, vwap := some 1, donchianBreakUp := true,
    obvSlope := some 1 }

/-- The all-undefined row (every regime gate fails on it). -/
def dRowR : Row := {}

/-- fallback trade for (never-taken) out-of-range list reads. -/
def dTrade : Trade :=
  { idx := 0, side := Side.HOLD, score := 0, direction := 0, fwdReturn := 0,
    grossReturn := 0, costReturn := 0, netReturn := 0, grossValue := 0,
    netValue := 0, atrPct := none, adx := none, weekday := 0 }

/-- Two-row history whose single selected trade wins (net +0.1 with zero
costs): one winning trade and zero losing value. -/
def rowsC2 : List SigRow :=
  [ { close := 100, side := Side.BUY, score := 0.6 },
    { close := 110 } ]

/-- Two-row history whose single selected trade loses (net −0.1 with zero
costs). -/
def rowsC2loss : List SigRow :=
  [ { close := 100, side := Side.BUY, score := 0.6 },
    { close := 90 } ]

/-- Five-row history for the optimizer near-tie counterexample: horizon 2
gives three winning trades (hit rate 1, small net sum), horizon 1 gives two
wins and two losses (hit rate 1/2, larger net sum). -/
def rowsC4 : List SigRow :=
  [ { close := 100, side := Side.BUY, score := 0.6 },
    { close := 90, side := Side.BUY, score := 0.6 },
    { close := 101, side := Side.BUY, score := 0.6 },
    { close := 91, side := Side.BUY, score := 0.6 },
    { close := 102, side := Side.BUY, score := 0.6 } ]

/-- A target hit rate 2·10⁻¹⁰ above the midpoint of the two hit rates of
`rowsC4`, so the two hit-rate gaps differ by 4·10⁻¹⁰ < 1e-9. -/
def tC4 : ℚ := 3/4 + 1/5000000000

/-- Entry bar for the TP/SL-tie scenario: price 100, ATR 2, ADX 25,
`atr_pct` 0.01, so SL = 97.6 and TP = 105. -/
def barC3entry : SigRow :=
  { close := 100, atr := some 2, adx := some 25, atrPct := some 0.01,
    high := 100, low := 100 }

/-- Forward bar that touches both the SL 97.6 (low 90) and the TP 105
(high 106). -/
def barC3hit : SigRow := { close := 101, high := 106, low := 90 }

/-- Two-bar frame whose second bar touches both the SL and the TP of a BUY
entered on the first bar. -/
def frameC3 : List SigRow := [barC3entry, barC3hit]

/-- Entry bar for the no-touch scenario: price 100, ATR 2, no ADX,
`atr_pct` 0.01, so SL = 97.6 and TP = 104. -/
def barC8entry : SigRow :=
  { close := 100, atr := some 2, adx := none, atrPct := some 0.01,
    high := 100, low := 100 }

/-- Two-bar frame whose second bar (high 101, low 99) touches neither level. -/
def frameC8 : List SigRow :=
  [barC8entry, { close := 102, high := 101, low := 99 }]

/-- A 50-row all-BUY rising history: exactly `folds·50` rows for `folds = 1`,
the walk-forward boundary case. -/
def rowsC6 : List SigRow :=
  (List.range 50).map (fun i => { close := 100 + i, side := Side.BUY, score := 0.6 })

/-- The score-driven override of a held side (`score >= 0.6` forces BUY,
`score <= 0.4` forces SELL). -/
def sideOverride (score : ℚ) : Side :=
  if 0.6 ≤ score then Side.BUY
  else if score ≤ 0.4 then Side.SELL
  else Side.HOLD

/-! ## Theorems -/

theorem emaComponent_bound (row : Row) : -1 ≤ emaComponent row ∧ emaComponent row ≤ 1 := by
  unfold emaComponent
  dsimp only
  split_ifs <;> constructor <;> linarith

theorem macdComponent_bound (row : Row) : -1 ≤ macdComponent row ∧ macdComponent row ≤ 1 := by
  unfold macdComponent
  constructor <;> (split <;> try split_ifs) <;> norm_num

theorem rsiComponent_bound (row : Row) :
    -0.5 ≤ rsiComponent row ∧ rsiComponent row ≤ 0.5 := by
  unfold rsiComponent
  constructor <;> (split <;> try split_ifs) <;> norm_num

theorem bbComponent_bound (row : Row) :
    -0.5 ≤ bbComponent row ∧ bbComponent row ≤ 0.5 := by
  unfold bbComponent
  constructor <;> (split <;> try split_ifs) <;> norm_num

theorem stochComponent_bound (row : Row) :
    -0.5 ≤ stochComponent row ∧ stochComponent row ≤ 0.5 := by
  unfold stochComponent
  constructor <;> (split <;> try split_ifs) <;> norm_num

theorem vwapComponent_bound (row : Row) :
    -0.25 ≤ vwapComponent row ∧ vwapComponent row ≤ 0.25 := by
  unfold vwapComponent
  constructor <;> (split <;> try split_ifs) <;> norm_num

theorem donchianComponent_bound (row : Row) :
    -0.25 ≤ donchianComponent row ∧ donchianComponent row ≤ 0.25 := by
  unfold donchianComponent
  constructor <;> split_ifs <;> norm_num

theorem obvComponent_bound (row : Row) :
    -0.2 ≤ obvComponent row ∧ obvComponent row ≤ 0.2 := by
  unfold obvComponent
  constructor <;> (split <;> try split_ifs) <;> norm_num

theorem devComponent_bound (row : Row) :
    -0.25 ≤ devComponent row ∧ devComponent row ≤ 0.25 := by
  unfold devComponent
  constructor <;> (split <;> try split_ifs) <;> norm_num

/-- C10: for every input row, the directional vote is hard-bounded: its
absolute value never exceeds 4.45, the sum of the maximal magnitudes of the
nine components (EMA ±1, MACD ±1, RSI ±0.5, BB-mid ±0.5, StochRSI ±0.5,
VWAP ±0.25, Donchian ±0.25, OBV slope ±0.2, VWAP-deviation ±0.25), an
undefined component contributing 0. -/
theorem claim10_vote_bounded (row : Row) : |directionalVote row| ≤ 4.45 := by
  have h1 := emaComponent_bound row
  have h2 := macdComponent_bound row
  have h3 := rsiComponent_bound row
  have h4 := bbComponent_bound row
  have h5 := stochComponent_bound row
  have h6 := vwapComponent_bound row
  have h7 := donchianComponent_bound row
  have h8 := obvComponent_bound row
  have h9 := devComponent_bound row
  rw [abs_le]
  unfold directionalVote
  constructor <;>
    linarith [h1.1, h1.2, h2.1, h2.2, h3.1, h3.2, h4.1, h4.2, h5.1, h5.2,
      h6.1, h6.2, h7.1, h7.2, h8.1, h8.2, h9.1, h9.2]

/-- C1 counterexample: a row whose volatility gate is false (`atr_pct = 0`)
on which `compute_signal_row` nevertheless returns BUY — the score-driven
override (score 1.0 ≥ 0.6) fires even though `vol_ok` is false, so "side =
HOLD for every row regardless of the sign of the votes" is false. -/
theorem claim1_counterexample :
    (regimeFilters exRowC1).2 = false ∧
    (computeSignalRow exRowC1 exRowC1 exRowC1).1 = Side.BUY := by decide

/-- C1 amended: whenever `vol_ok` is false the two regime-gated branches
cannot fire, so the side is decided solely by the score override: BUY when
score ≥ 0.6, SELL when score ≤ 0.4, HOLD otherwise. -/
theorem claim1_amended (b h1 h4 : Row) (h : (regimeFilters b).2 = false) :
    computeSignalRow b h1 h4 =
      (sideOverride (scoreFromComponents (directionalVote b) (directionalVote h1)
          (directionalVote h4) (regimeFilters b).1 false),
        scoreFromComponents (directionalVote b) (directionalVote h1)
          (directionalVote h4) (regimeFilters b).1 false) := by
  unfold computeSignalRow sideOverride
  simp only [h]
  simp

/-- Witness for the amended C1, at the all-undefined row. -/
theorem claim1_amended_witness :
    (regimeFilters dRowR).2 = false ∧
    computeSignalRow dRowR dRowR dRowR =
      (sideOverride (scoreFromComponents (directionalVote dRowR) (directionalVote dRowR)
          (directionalVote dRowR) (regimeFilters dRowR).1 false),
        scoreFromComponents (directionalVote dRowR) (directionalVote dRowR)
          (directionalVote dRowR) (regimeFilters dRowR).1 false) :=
  ⟨by decide, claim1_amended dRowR dRowR dRowR (by decide)⟩

/-- C5 counterexample: (a) a negative price passes the truthiness guard, so
the claimed precondition `price > 0` is not required — `(sl, tp)` is not
`(null, null)` at price −5; (b) at `atr_pct = 0` (which satisfies the claimed
`atr_pct ≤ 0.02`) the 1.5 multiple is used, not 1.2, because `atr_pct and
...` is falsy at 0; (c) results are rounded to 2 decimals, so `tp` is not
exactly `price + tp_multiple·atr`. -/
theorem claim5_counterexample :
    (¬ (0 : ℚ) < -5) ∧
    adaptiveSlTp (some (-5)) (some 1) Side.BUY (some 25) (some 0.01) ≠ (none, none) ∧
    ((0 : ℚ) ≤ 0.02 ∧
      adaptiveSlTp (some 100) (some 1) Side.BUY (some 25) (some 0) =
        (some 98.5, some 102.5) ∧
      (98.5 : ℚ) ≠ 100 - 1.2 * 1) ∧
    ((adaptiveSlTp (some 100) (some (1/3)) Side.BUY (some 25) (some 0.01)).2 =
        some 100.83 ∧
      (100.83 : ℚ) ≠ 100 + 2.5 * (1/3)) := by decide

/-- C5 amended: `adaptive_sl_tp` agrees everywhere with the amended
specification `adaptiveSlTpSpec` (truthiness price guard `price ≠ 0`,
`atr > 0`, the 1.2 stop multiple only for a defined nonzero `atr_pct ≤ 0.02`,
levels rounded half-to-even at 2 decimals, BUY/SELL mirrored, `(null, null)`
otherwise). -/
theorem claim5_amended (price atr : Option ℚ) (side : Side) (adx atrPct : Option ℚ) :
    adaptiveSlTp price atr side adx atrPct = adaptiveSlTpSpec price atr side adx atrPct := by
  rcases price with _ | p <;> rcases atr with _ | a <;> try rfl
  unfold adaptiveSlTp adaptiveSlTpSpec
  by_cases hp : p = 0
  · simp [hp]
  by_cases ha : (0 : ℚ) < a
  · have ha2 : ¬ a ≤ 0 := not_le.mpr ha
    have ha3 : a ≠ 0 := ne_of_gt ha
    rcases adx with _ | x
    · rcases atrPct with _ | ap <;> rcases side <;> simp [hp, ha, ha2, ha3]
    · have hx : (x ≠ 0 ∧ 20 ≤ x) ↔ (20 ≤ x) := by
        constructor
        · exact And.right
        · intro h20
          refine ⟨?_, h20⟩
          rintro rfl
          norm_num at h20
      rcases atrPct with _ | ap <;> rcases side <;>
        simp [hp, ha, ha2, ha3, hx]
  · have ha4 : a ≤ 0 := not_lt.mp ha
    simp [hp, ha, ha4]

/-- C7: for every trade of every backtest run, in both execution modes,
`cost_return = (commission_bps·2 + slippage_bps·2)/10000` and
`net_return = gross_return − cost_return` exactly; with commission 4 bps and
slippage 1 bps the cost is exactly 0.001. -/
theorem claim7_cost_model (rows : List SigRow) (th : ℚ) (limit hz : ℕ)
    (c s pos : ℚ) (mode : Mode) (dtIdx : Bool) (t : Trade)
    (ht : t ∈ (backtestSignals rows th limit hz c s pos mode dtIdx).tradeList) :
    t.costReturn = (c * 2 + s * 2) / 10000 ∧
    t.netReturn = t.grossReturn - t.costReturn ∧
    (c = 4 → s = 1 → t.costReturn = 0.001) := by
  have ht2 : t ∈ activeTrades rows th hz c s pos mode := ht
  rcases List.mem_map.mp ht2 with ⟨i, hi, rfl⟩
  refine ⟨rfl, rfl, ?_⟩
  rintro rfl rfl
  norm_num [mkTrade]

/-- Witness for C7: the single trade of a concrete two-row backtest with
commission 4 bps and slippage 1 bps. -/
theorem claim7_witness :
    ((backtestSignals rowsC2 0.6 2 1 4 1 1 Mode.horizon false).tradeList.headD dTrade).costReturn
        = 0.001 ∧
    ((backtestSignals rowsC2 0.6 2 1 4 1 1 Mode.horizon false).tradeList.headD dTrade).netReturn
        = ((backtestSignals rowsC2 0.6 2 1 4 1 1 Mode.horizon false).tradeList.headD dTrade).grossReturn
          - ((backtestSignals rowsC2 0.6 2 1 4 1 1 Mode.horizon false).tradeList.headD dTrade).costReturn :=
  ⟨(claim7_cost_model rowsC2 0.6 2 1 4 1 1 Mode.horizon false _ (by decide)).2.2 rfl rfl,
    (claim7_cost_model rowsC2 0.6 2 1 4 1 1 Mode.horizon false _ (by decide)).2.1⟩

/-- C2 counterexample: a backtest with exactly one (winning) trade and zero
losing value has `profit_factor = 0`, not `inf` — the source only recomputes
the profit factor when the losing value is strictly negative, so the claimed
"infinite iff at least one win and zero losing value" is false. -/
theorem claim2_counterexample :
    ((backtestSignals rowsC2 0.6 2 1 0 0 1 Mode.horizon false).tradeList.filter
        (fun t => decide (0 < t.netValue))).length = 1 ∧
    lossesValue (backtestSignals rowsC2 0.6 2 1 0 0 1 Mode.horizon false).tradeList = 0 ∧
    (backtestSignals rowsC2 0.6 2 1 0 0 1 Mode.horizon false).profitFactor = PF.fin 0 ∧
    (backtestSignals rowsC2 0.6 2 1 0 0 1 Mode.horizon false).profitFactor ≠ PF.inf := by
  decide

/-- C2 amended: for every backtest result the profit factor is nonnegative;
it equals `|Σ positive net_value| / |Σ negative net_value|` whenever the
losing value is below −1e-12; and it is infinite iff there is at least one
trade and the losing value is negative but within 1e-12 of zero (in
particular a winning run with zero losing value yields 0, not `inf`). -/
theorem claim2_amended (rows : List SigRow) (th : ℚ) (limit hz : ℕ)
    (c s pos : ℚ) (mode : Mode) (dtIdx : Bool) (rep : Report)
    (hrep : rep = backtestSignals rows th limit hz c s pos mode dtIdx) :
    (rep.profitFactor.geQ 0 = true) ∧
    (lossesValue rep.tradeList < -1e-12 →
      rep.profitFactor = PF.fin (|winsValue rep.tradeList| / |lossesValue rep.tradeList|)) ∧
    (rep.profitFactor = PF.inf ↔
      (0 < rep.trades ∧ -1e-12 ≤ lossesValue rep.tradeList ∧
        lossesValue rep.tradeList < 0)) := by
  subst hrep
  have hpf : (backtestSignals rows th limit hz c s pos mode dtIdx).profitFactor =
      profitFactorOf (activeTrades rows th hz c s pos mode).length
        (winsValue (activeTrades rows th hz c s pos mode))
        (lossesValue (activeTrades rows th hz c s pos mode)) := rfl
  have htr : (backtestSignals rows th limit hz c s pos mode dtIdx).trades =
      (activeTrades rows th hz c s pos mode).length := rfl
  have htl : (backtestSignals rows th limit hz c s pos mode dtIdx).tradeList =
      activeTrades rows th hz c s pos mode := rfl
  rw [hpf, htr, htl]
  set tl := activeTrades rows th hz c s pos mode with htldef
  refine ⟨?_, ?_, ?_⟩
  · unfold profitFactorOf
    split_ifs with h1 h2
    · simp only [PF.geQ, decide_eq_true_eq]
      positivity
    · rfl
    · simp [PF.geQ]
  · intro hlv
    have hne : tl ≠ [] := by
      intro h0
      rw [h0] at hlv
      simp [lossesValue] at hlv
      norm_num at hlv
    have hlen : tl.length ≠ 0 := by
      simpa [List.length_eq_zero] using hne
    have hneg : lossesValue tl < 0 := by
      have : (-1e-12 : ℚ) < 0 := by norm_num
      linarith
    have habs : (1e-12 : ℚ) < |lossesValue tl| := by
      rw [abs_of_neg hneg]
      linarith
    unfold profitFactorOf
    rw [if_pos ⟨hlen, hneg⟩, if_pos habs]
  · unfold profitFactorOf
    split_ifs with h1 h2
    · constructor
      · intro hcontr
        exact absurd hcontr (by simp)
      · rintro ⟨-, hge, hlt⟩
        have : lossesValue tl < -1e-12 := by
          have := h2
          rw [abs_of_neg hlt] at this
          linarith
        linarith
    · constructor
      · intro _
        have hge : -1e-12 ≤ lossesValue tl := by
          have habs : |lossesValue tl| ≤ 1e-12 := not_lt.mp h2
          rw [abs_of_neg h1.2] at habs
          linarith
        exact ⟨Nat.pos_of_ne_zero h1.1, hge, h1.2⟩
      · intro _
        rfl
    · constructor
      · intro hcontr
        exact absurd hcontr (by simp)
      · rintro ⟨hpos, -, hlt⟩
        exact absurd ⟨Nat.pos_iff_ne_zero.mp hpos, hlt⟩ h1

/-- Witness for the amended C2, at a run with one losing trade. -/
theorem claim2_amended_witness :
    lossesValue (backtestSignals rowsC2loss 0.6 2 1 0 0 1 Mode.horizon false).tradeList
        < -1e-12 ∧
    (backtestSignals rowsC2loss 0.6 2 1 0 0 1 Mode.horizon false).profitFactor =
      PF.fin (|winsValue (backtestSignals rowsC2loss 0.6 2 1 0 0 1 Mode.horizon false).tradeList| /
        |lossesValue (backtestSignals rowsC2loss 0.6 2 1 0 0 1 Mode.horizon false).tradeList|) :=
  ⟨by decide,
    (claim2_amended rowsC2loss 0.6 2 1 0 0 1 Mode.horizon false _ rfl).2.1 (by decide)⟩

/-- C9: when the selected trade set is empty, the aggregation does not fail
and every statistic defaults to zero or empty. -/
theorem claim9_empty_defaults (rows : List SigRow) (th : ℚ) (limit hz : ℕ)
    (c s pos : ℚ) (mode : Mode) (dtIdx : Bool)
    (h : activeTrades rows th hz c s pos mode = []) :
    backtestSignals rows th limit hz c s pos mode dtIdx =
      { threshold := th, limit := limit, horizon := hz, commissionBps := c,
        slippageBps := s, positionSize := pos, trades := 0, grossValueSum := 0,
        netValueSum := 0, grossReturnSum := 0, netReturnSum := 0, hitRate := 0,
        costReturn := (c * 2 + s * 2) / 10000, sharpe := SqrtStat.zero,
        sortino := SqrtStat.zero, maxDrawdown := 0, avgWin := 0, avgLoss := 0,
        expectancy := 0, profitFactor := PF.fin 0, winLoss := 0, medianReturn := 0,
        returnStd := SqrtStat.zero, returnQuantiles := none,
        sideBreakdown := (emptySideSummary, emptySideSummary),
        weekdayBreakdown := [], streaks := (0, 0),
        exposure := { bars := 0, minutes := 0, hours := 0, days := 0, frac := 0 },
        regimeMetrics := [], scoreBuckets := [], equityCurve := [],
        tradeList := [] } := by
  unfold backtestSignals
  rw [h]
  simp [sideSummaryOf, emptySideSummary, streaksOf, exposureOf, regimeMetricsOf,
    scoreBucketsOf, cumsum, profitFactorOf, winsValue, lossesValue]

/-- Witness for C9: a concrete run whose threshold filters out every row. -/
theorem claim9_witness :
    backtestSignals rowsC2 0.9 2 1 4 1 1 Mode.horizon false =
      { threshold := 0.9, limit := 2, horizon := 1, commissionBps := 4,
        slippageBps := 1, positionSize := 1, trades := 0, grossValueSum := 0,
        netValueSum := 0, grossReturnSum := 0, netReturnSum := 0, hitRate := 0,
        costReturn := (4 * 2 + 1 * 2) / 10000, sharpe := SqrtStat.zero,
        sortino := SqrtStat.zero, maxDrawdown := 0, avgWin := 0, avgLoss := 0,
        expectancy := 0, profitFactor := PF.fin 0, winLoss := 0, medianReturn := 0,
        returnStd := SqrtStat.zero, returnQuantiles := none,
        sideBreakdown := (emptySideSummary, emptySideSummary),
        weekdayBreakdown := [], streaks := (0, 0),
        exposure := { bars := 0, minutes := 0, hours := 0, days := 0, frac := 0 },
        regimeMetrics := [], scoreBuckets := [], equityCurve := [],
        tradeList := [] } :=
  claim9_empty_defaults rowsC2 0.9 2 1 4 1 1 Mode.horizon false (by decide)

theorem scanHits_first_tp (path : List SigRow) (slP tpP : SigRow → Bool) (j : ℕ)
    (bj : SigRow) (hj : path.get? j = some bj)
    (hfirst : ∀ k bk, k < j → path.get? k = some bk → slP bk = false ∧ tpP bk = false)
    (htp : tpP bj = true) :
    scanHits path slP tpP = some Hit.TP := by
  induction path generalizing j with
  | nil => simp at hj
  | cons hd rest ih =>
    cases j with
    | zero =>
      rw [List.get?_cons_zero] at hj
      obtain rfl : hd = bj := by injection hj
      unfold scanHits
      rw [htp]
      simp
    | succ j2 =>
      have h0 := hfirst 0 hd (Nat.succ_pos j2) rfl
      unfold scanHits
      rw [h0.1, h0.2]
      simp only [Bool.or_self, Bool.false_eq_true, if_false]
      exact ih j2 (by simpa using hj)
        (fun k bk hk hbk => hfirst (k + 1) bk (Nat.succ_lt_succ hk) (by simpa using hbk))

/-- C3: in the event-driven mode, the forward bars are scanned in order for
the first touching bar; when both the SL and TP conditions hold on that
first-touch bar, the trade is resolved as a TP hit (TP is checked first) and
the gross return is the TP move signed by direction. -/
theorem claim3_tp_priority (frame : List SigRow) (i hz : ℕ) (sideI : Side)
    (r0 : SigRow) (slv tpv : ℚ) (j : ℕ) (bj : SigRow)
    (hr0 : frame.get? i = some r0)
    (hlv : adaptiveSlTp (some r0.close) r0.atr sideI r0.adx r0.atrPct = (some slv, some tpv))
    (hside : sideI = Side.BUY ∨ sideI = Side.SELL)
    (hsl0 : slv ≠ 0) (htp0 : tpv ≠ 0)
    (hbj : (eventPath frame i hz).get? j = some bj)
    (hfirst : ∀ k bk, k < j → (eventPath frame i hz).get? k = some bk →
      touchSL sideI slv bk = false ∧ touchTP sideI tpv bk = false)
    (hboth : touchSL sideI slv bj = true ∧ touchTP sideI tpv bj = true) :
    eventFirstHit frame i hz sideI = some Hit.TP ∧
    eventGross frame i hz sideI =
      (if sideI = Side.BUY then (tpv - r0.close) / r0.close
       else (r0.close - tpv) / r0.close) := by
  have hscan : scanHits (eventPath frame i hz) (touchSL sideI slv) (touchTP sideI tpv) =
      some Hit.TP :=
    scanHits_first_tp _ _ _ j bj hbj hfirst hboth.2
  have hfh : eventFirstHit frame i hz sideI = some Hit.TP := by
    unfold eventFirstHit
    rw [hr0]
    dsimp only
    rw [hlv]
    dsimp only
    rw [if_pos ⟨hside, hsl0, htp0⟩]
    exact hscan
  refine ⟨hfh, ?_⟩
  unfold eventGross
  rw [hr0]
  dsimp only
  rw [hfh, hlv]

/-- Witness for C3: the concrete two-bar BUY whose forward bar touches both
levels resolves as TP, with gross return (105 − 100)/100 = 1/20. -/
theorem claim3_witness :
    touchSL Side.BUY 97.6 barC3hit = true ∧ touchTP Side.BUY 105 barC3hit = true ∧
    eventFirstHit frameC3 0 1 Side.BUY = some Hit.TP ∧
    eventGross frameC3 0 1 Side.BUY = 1 / 20 := by
  have h := claim3_tp_priority frameC3 0 1 Side.BUY barC3entry 97.6 105 0 barC3hit
    (by decide) (by decide) (Or.inl rfl) (by decide) (by decide) (by decide)
    (fun k bk hk _ => absurd hk (Nat.not_lt_zero k)) ⟨by decide, by decide⟩
  refine ⟨by decide, by decide, h.1, ?_⟩
  rw [h.2]
  decide

/-- C8: in the event-driven mode, a trade whose window touches neither level
realizes the horizon-end close return, exactly the horizon-mode gross return
of that trade. -/
theorem claim8_no_touch (frame : List SigRow) (i hz : ℕ) (sideI : Side) (r0 : SigRow)
    (hr0 : frame.get? i = some r0)
    (hhz : 1 ≤ hz) (hlen : i + hz < frame.length) (hcl : r0.close ≠ 0)
    (hside : sideI = Side.BUY ∨ sideI = Side.SELL)
    (hnone : eventFirstHit frame i hz sideI = none) :
    eventGross frame i hz sideI = horizonGross frame i hz sideI := by
  have hrj : frame.get? (i + hz) = some (frame.get ⟨i + hz, hlen⟩) := List.get?_eq_get hlen
  set rj := frame.get ⟨i + hz, hlen⟩ with hrjdef
  have hmin : min (i + hz) (frame.length - 1) = i + hz := by omega
  have hlast : (eventPath frame i hz).getLast? = some rj := by
    have hplen : (eventPath frame i hz).length = hz := by
      unfold eventPath
      rw [hmin]
      simp only [List.length_take, List.length_drop]
      omega
    have hget : (eventPath frame i hz)[hz - 1]? = some rj := by
      unfold eventPath
      rw [hmin]
      rw [List.getElem?_take_of_lt (by omega)]
      rw [List.getElem?_drop]
      rw [show i + 1 + (hz - 1) = i + hz by omega]
      rw [← List.get?_eq_getElem?]
      exact hrj
    rw [List.getLast?_eq_getElem? , hplen]
    exact hget
  have hev : eventGross frame i hz sideI =
      (if sideI = Side.BUY then (rj.close - r0.close) / r0.close
       else (r0.close - rj.close) / r0.close) := by
    unfold eventGross
    rw [hr0]
    dsimp only
    rw [hnone]
    dsimp only
    rw [hlast]
  have hhor : horizonGross frame i hz sideI = dirOf sideI * (rj.close / r0.close - 1) := by
    unfold horizonGross fwdReturnAt
    rw [hrj, hr0]
    dsimp only
    rw [if_pos hlen]
    rfl
  rw [hev, hhor]
  rcases hside with rfl | rfl
  · rw [if_pos rfl]
    show (rj.close - r0.close) / r0.close = 1 * (rj.close / r0.close - 1)
    field_simp
  · rw [if_neg (by decide)]
    show (r0.close - rj.close) / r0.close = -1 * (rj.close / r0.close - 1)
    field_simp

/-- Witness for C8: the concrete no-touch BUY realizes (102 − 100)/100, the
same value horizon mode computes. -/
theorem claim8_witness :
    eventFirstHit frameC8 0 1 Side.BUY = none ∧
    eventGross frameC8 0 1 Side.BUY = horizonGross frameC8 0 1 Side.BUY :=
  ⟨by decide,
    claim8_no_touch frameC8 0 1 Side.BUY barC8entry (by decide) (by decide) (by decide)
      (by decide) (Or.inl rfl) (by decide)⟩

theorem closestStep_best (tgt : ℚ) (st : SelState) (cand : Candidate) :
    (closestStep tgt st cand).best = st.best := by
  unfold closestStep
  cases st.closest <;>
    first
      | rfl
      | (dsimp only; split_ifs <;> rfl)

theorem closestStep_closest (tgt : ℚ) (st : SelState) (cand : Candidate) :
    (closestStep tgt st cand).closest = st.closest ∨
    (closestStep tgt st cand).closest = some cand := by
  unfold closestStep
  cases hcl : st.closest with
  | none => right; rfl
  | some cl =>
    dsimp only
    split_ifs
    · right; rfl
    · left; exact hcl

theorem selStep_best_not_qual (tgt : ℚ) (mt : ℕ) (st : SelState) (cand : Candidate)
    (h : qualifies tgt mt cand = false) :
    (selStep tgt mt st cand).best = st.best := by
  unfold selStep
  dsimp only
  rw [h, if_neg (by simp)]
  exact closestStep_best tgt st cand

theorem selStep_best_qual (tgt : ℚ) (mt : ℕ) (st : SelState) (cand : Candidate)
    (h : qualifies tgt mt cand = true) :
    ∃ nb, (selStep tgt mt st cand).best = some nb ∧
      cand.netReturnSum ≤ nb.netReturnSum ∧
      (∀ b0, st.best = some b0 → b0.netReturnSum ≤ nb.netReturnSum) ∧
      (nb = cand ∨ st.best = some nb) := by
  have hb := closestStep_best tgt st cand
  unfold selStep
  dsimp only
  rw [h, if_pos rfl, hb]
  cases hb2 : st.best with
  | none =>
    dsimp only
    refine ⟨cand, rfl, le_refl _, ?_, Or.inl rfl⟩
    intro b0 h0
    cases h0
  | some b0 =>
    dsimp only
    by_cases hlt : b0.netReturnSum < cand.netReturnSum
    · rw [if_pos hlt]
      refine ⟨cand, rfl, le_refl _, ?_, Or.inl rfl⟩
      intro b1 h1
      injection h1 with h1
      subst h1
      exact le_of_lt hlt
    · rw [if_neg hlt]
      refine ⟨b0, ?_, not_lt.mp hlt, ?_, Or.inr rfl⟩
      · rw [hb, hb2]
      · intro b1 h1
        injection h1 with h1
        subst h1
        exact le_refl _

theorem selStep_best_cases (tgt : ℚ) (mt : ℕ) (st : SelState) (cand : Candidate) :
    (selStep tgt mt st cand).best = st.best ∨ (selStep tgt mt st cand).best = some cand := by
  by_cases h : qualifies tgt mt cand = true
  · obtain ⟨nb, hnb, -, -, hor⟩ := selStep_best_qual tgt mt st cand h
    rcases hor with rfl | hst
    · right; exact hnb
    · left; rw [hnb, hst]
  · left
    exact selStep_best_not_qual tgt mt st cand (Bool.eq_false_iff.mpr h)

theorem selStep_closest_cases (tgt : ℚ) (mt : ℕ) (st : SelState) (cand : Candidate) :
    (selStep tgt mt st cand).closest = st.closest ∨
    (selStep tgt mt st cand).closest = some cand := by
  have hc := closestStep_closest tgt st cand
  unfold selStep
  dsimp only
  split_ifs
  · cases hcb : (closestStep tgt st cand).best <;> dsimp only
    · exact hc
    · split_ifs <;> exact hc
  · exact hc

theorem selFold_preserve (P : Candidate → Prop) (tgt : ℚ) (mt : ℕ) (l : List Candidate)
    (st : SelState)
    (hb : ∀ b, st.best = some b → P b) (hc : ∀ c, st.closest = some c → P c)
    (hl : ∀ x ∈ l, P x) :
    (∀ b, (l.foldl (selStep tgt mt) st).best = some b → P b) ∧
    (∀ c, (l.foldl (selStep tgt mt) st).closest = some c → P c) := by
  induction l generalizing st with
  | nil => exact ⟨hb, hc⟩
  | cons hd rest ih =>
    rw [List.foldl_cons]
    refine ih (selStep tgt mt st hd) ?_ ?_ (fun x hx => hl x (List.mem_cons_of_mem _ hx))
    · intro b hbb
      rcases selStep_best_cases tgt mt st hd with he | he
      · exact hb b (he ▸ hbb)
      · rw [he] at hbb
        injection hbb with hbb
        subst hbb
        exact hl hd (List.mem_cons_self _ _)
    · intro c hcc
      rcases selStep_closest_cases tgt mt st hd with he | he
      · exact hc c (he ▸ hcc)
      · rw [he] at hcc
        injection hcc with hcc
        subst hcc
        exact hl hd (List.mem_cons_self _ _)

theorem selFold_best (tgt : ℚ) (mt : ℕ) (l : List Candidate) (st : SelState)
    (hq : ∀ b, st.best = some b → qualifies tgt mt b = true) :
    (∀ b, (l.foldl (selStep tgt mt) st).best = some b → qualifies tgt mt b = true) ∧
    (∀ b0, st.best = some b0 → ∃ b, (l.foldl (selStep tgt mt) st).best = some b ∧
      b0.netReturnSum ≤ b.netReturnSum) ∧
    (∀ x ∈ l, qualifies tgt mt x = true → ∃ b, (l.foldl (selStep tgt mt) st).best = some b ∧
      x.netReturnSum ≤ b.netReturnSum) := by
  induction l generalizing st with
  | nil =>
    refine ⟨hq, fun b0 h0 => ⟨b0, h0, le_refl _⟩, by simp⟩
  | cons hd rest ih =>
    rw [List.foldl_cons]
    by_cases hqhd : qualifies tgt mt hd = true
    · obtain ⟨nb, hnb, hcle, hole, hor⟩ := selStep_best_qual tgt mt st hd hqhd
      have hq2 : ∀ b, (selStep tgt mt st hd).best = some b → qualifies tgt mt b = true := by
        intro b hbb
        rw [hnb] at hbb
        injection hbb with hbb
        subst hbb
        rcases hor with rfl | hst
        · exact hqhd
        · exact hq _ hst
      obtain ⟨P1, P2, P3⟩ := ih (selStep tgt mt st hd) hq2
      refine ⟨P1, ?_, ?_⟩
      · intro b0 h0
        obtain ⟨b, hbfin, hle⟩ := P2 nb hnb
        exact ⟨b, hbfin, le_trans (hole b0 h0) hle⟩
      · intro x hx hqx
        rcases List.mem_cons.mp hx with rfl | hx2
        · obtain ⟨b, hbfin, hle⟩ := P2 nb hnb
          exact ⟨b, hbfin, le_trans hcle hle⟩
        · exact P3 x hx2 hqx
    · have heq := selStep_best_not_qual tgt mt st hd (Bool.eq_false_iff.mpr hqhd)
      have hq2 : ∀ b, (selStep tgt mt st hd).best = some b → qualifies tgt mt b = true := by
        intro b hbb
        exact hq b (heq ▸ hbb)
      obtain ⟨P1, P2, P3⟩ := ih (selStep tgt mt st hd) hq2
      refine ⟨P1, ?_, ?_⟩
      · intro b0 h0
        exact P2 b0 (by rw [heq]; exact h0)
      · intro x hx hqx
        rcases List.mem_cons.mp hx with rfl | hx2
        · exact absurd hqx hqhd
        · exact P3 x hx2 hqx

theorem selectCandidate_cases (cands : List Candidate) (tgt : ℚ) (mt : ℕ) (fb : Candidate) :
    selectCandidate cands tgt mt fb ∈ cands ∨ selectCandidate cands tgt mt fb = fb := by
  unfold selectCandidate
  dsimp only
  have h := selFold_preserve (· ∈ cands) tgt mt cands ⟨none, none, 1⟩
    (by intro b hb; cases hb) (by intro c hc; cases hc) (fun x hx => hx)
  cases hbb : (cands.foldl (selStep tgt mt) ⟨none, none, 1⟩).best with
  | some b => left; exact h.1 b hbb
  | none =>
    cases hcc : (cands.foldl (selStep tgt mt) ⟨none, none, 1⟩).closest with
    | some cl => left; exact h.2 cl hcc
    | none => right; rfl

theorem optimizerCells_mem (rows : List SigRow) (dtIdx : Bool) (thresholds : List ℚ)
    (horizons : List ℕ) (limit : ℕ) (c s pos : ℚ) (mode : Mode) (wf : Bool) (folds : ℕ)
    (cd : Candidate)
    (h : cd ∈ optimizerCells rows dtIdx thresholds horizons limit c s pos mode wf folds) :
    cd.threshold ∈ thresholds ∧ cd.horizon ∈ horizons := by
  unfold optimizerCells at h
  rcases List.mem_map.mp h with ⟨p, hp, rfl⟩
  have hpm : p.1 ∈ thresholds ∧ p.2 ∈ horizons := by
    unfold gridCells at hp
    rcases List.mem_flatMap.mp hp with ⟨hz, hhz, hp2⟩
    rcases List.mem_map.mp hp2 with ⟨th, hth, rfl⟩
    exact ⟨hth, hhz⟩
  constructor
  · split_ifs <;> exact hpm.1
  · split_ifs <;> exact hpm.2

theorem placeholder_mem (thresholds : List ℚ) (horizons : List ℕ)
    (h1 : thresholds ≠ []) (h2 : horizons ≠ []) :
    (placeholderCand thresholds horizons).threshold ∈ thresholds ∧
    (placeholderCand thresholds horizons).horizon ∈ horizons := by
  unfold placeholderCand
  cases thresholds with
  | nil => exact absurd rfl h1
  | cons a l =>
    cases horizons with
    | nil => exact absurd rfl h2
    | cons b m => exact ⟨by simp, by simp⟩

/-- C4 counterexample: with no qualifying cell, the optimizer does not return
the candidate with the smallest |hit_rate − target_hit|: at a target
2·10⁻¹⁰ above 3/4, the (0.6, horizon 2) cell has hit rate 1 (gap 1/4 −
2·10⁻¹⁰) but the returned candidate is the (0.6, horizon 1) cell with hit
rate 1/2 (strictly larger gap 1/4 + 2·10⁻¹⁰) — the gaps differ by
4·10⁻¹⁰ < 1e-9, which with its larger net sum makes it replace the closer
cell. -/
theorem claim4_counterexample :
    optimizeParams rowsC4 false [0.6] [2, 1] 5 0 0 1 tC4 25 Mode.horizon false 3 =
      evalCellWhole rowsC4 5 0 0 1 Mode.horizon false 0.6 1 ∧
    qualifies tC4 25 (evalCellWhole rowsC4 5 0 0 1 Mode.horizon false 0.6 2) = false ∧
    qualifies tC4 25 (evalCellWhole rowsC4 5 0 0 1 Mode.horizon false 0.6 1) = false ∧
    |(evalCellWhole rowsC4 5 0 0 1 Mode.horizon false 0.6 2).hitRate - tC4| <
      |(optimizeParams rowsC4 false [0.6] [2, 1] 5 0 0 1 tC4 25 Mode.horizon
        false 3).hitRate - tC4| := by
  set_option maxRecDepth 4000 in decide

/-- C4 amended: for any non-empty thresholds and horizons, `optimize_params`
always returns a candidate whose threshold and horizon come from the supplied
grids; when some grid cell satisfies hit_rate ≥ target_hit, trades ≥
min_trades and profit_factor ≥ 1.3, the returned candidate satisfies them
too and its net_return_sum is maximal among such cells.  When no cell
qualifies, the returned candidate is the result of the sequential
closest-scan, which keeps the incumbent unless a cell has a strictly smaller
gap, or a gap within 1e-9 of the incumbent gap with a strictly larger
net_return_sum — so its gap need not be the minimum; the zero-filled
placeholder (first threshold/horizon) only arises for empty grids. -/
theorem claim4_amended (rows : List SigRow) (dtIdx : Bool) (thresholds : List ℚ)
    (horizons : List ℕ) (limit : ℕ) (c s pos : ℚ) (tgt : ℚ) (mt : ℕ) (mode : Mode)
    (wf : Bool) (folds : ℕ) (hth : thresholds ≠ []) (hhz : horizons ≠ []) :
    (optimizeParams rows dtIdx thresholds horizons limit c s pos tgt mt mode wf
      folds).threshold ∈ thresholds ∧
    (optimizeParams rows dtIdx thresholds horizons limit c s pos tgt mt mode wf
      folds).horizon ∈ horizons ∧
    (∀ cd ∈ optimizerCells rows dtIdx thresholds horizons limit c s pos mode wf folds,
      qualifies tgt mt cd = true →
        qualifies tgt mt (optimizeParams rows dtIdx thresholds horizons limit c s pos
          tgt mt mode wf folds) = true ∧
        cd.netReturnSum ≤ (optimizeParams rows dtIdx thresholds horizons limit c s pos
          tgt mt mode wf folds).netReturnSum) := by
  have hmem := selectCandidate_cases
    (optimizerCells rows dtIdx thresholds horizons limit c s pos mode wf folds) tgt mt
    (placeholderCand thresholds horizons)
  refine ⟨?_, ?_, ?_⟩
  · rcases hmem with hm | hm
    · exact (optimizerCells_mem rows dtIdx thresholds horizons limit c s pos mode wf
        folds _ hm).1
    · rw [show optimizeParams rows dtIdx thresholds horizons limit c s pos tgt mt mode
          wf folds = placeholderCand thresholds horizons from hm]
      exact (placeholder_mem thresholds horizons hth hhz).1
  · rcases hmem with hm | hm
    · exact (optimizerCells_mem rows dtIdx thresholds horizons limit c s pos mode wf
        folds _ hm).2
    · rw [show optimizeParams rows dtIdx thresholds horizons limit c s pos tgt mt mode
          wf folds = placeholderCand thresholds horizons from hm]
      exact (placeholder_mem thresholds horizons hth hhz).2
  · intro cd hcd hq
    obtain ⟨Q1, -, Q3⟩ := selFold_best tgt mt
      (optimizerCells rows dtIdx thresholds horizons limit c s pos mode wf folds)
      ⟨none, none, 1⟩ (by intro b hb; cases hb)
    obtain ⟨b, hb, hle⟩ := Q3 cd hcd hq
    have hres : optimizeParams rows dtIdx thresholds horizons limit c s pos tgt mt mode
        wf folds = b := by
      unfold optimizeParams selectCandidate
      dsimp only
      rw [hb]
    rw [hres]
    exact ⟨Q1 b hb, hle⟩

/-- Witness for the amended C4 at a concrete 1×1 grid. -/
theorem claim4_amended_witness :
    (optimizeParams rowsC2 false [0.6] [1] 2 0 0 1 0.64 25 Mode.horizon false
      3).threshold ∈ [(0.6 : ℚ)] ∧
    (optimizeParams rowsC2 false [0.6] [1] 2 0 0 1 0.64 25 Mode.horizon false
      3).horizon ∈ [1] ∧
    (∀ cd ∈ optimizerCells rowsC2 false [0.6] [1] 2 0 0 1 Mode.horizon false 3,
      qualifies 0.64 25 cd = true →
        qualifies 0.64 25 (optimizeParams rowsC2 false [0.6] [1] 2 0 0 1 0.64 25
          Mode.horizon false 3) = true ∧
        cd.netReturnSum ≤ (optimizeParams rowsC2 false [0.6] [1] 2 0 0 1 0.64 25
          Mode.horizon false 3).netReturnSum) :=
  claim4_amended rowsC2 false [0.6] [1] 2 0 0 1 0.64 25 Mode.horizon false 3
    (by simp) (by simp)

/-- C6 counterexample: with exactly `folds·50` rows (50 rows, 1 fold) the
walk-forward gate is false — the claimed lower bound of folds·50 rows would use
walk-forward, but the source requires strictly more.  The walkforward run
equals the plain run, while fold evaluation would have produced a different
cell (0 trades instead of 49).  With `folds = 0` the gate passes yet the
(falsy) empty fold list still skips walk-forward. -/
theorem claim6_counterexample :
    1 * 50 ≤ rowsC6.length ∧
    usesWalkForward true true rowsC6.length 1 = false ∧
    optimizeParams rowsC6 true [0.6] [1] 50 0 0 1 0.64 25 Mode.horizon true 1 =
      optimizeParams rowsC6 true [0.6] [1] 50 0 0 1 0.64 25 Mode.horizon false 1 ∧
    (evalCellWhole rowsC6 50 0 0 1 Mode.horizon true 0.6 1).trades = 49 ∧
    (evalCellFolds (foldSlicesOf rowsC6 true 1) 50 0 0 1 Mode.horizon true 0.6 1).trades
      = 0 ∧
    usesWalkForward true true rowsC6.length 0 = true ∧
    foldSlicesOf rowsC6 (usesWalkForward true true rowsC6.length 0) 0 = [] := by
  set_option maxRecDepth 8000 in decide

/-- C6 amended: walk-forward (fold-partitioned) evaluation is used exactly
when walk-forward mode is requested, the index is a datetime index, `folds ≥
1`, and the history has strictly more than `folds·50` rows; otherwise it is
silently skipped and every grid cell is evaluated once over the whole
history. -/
theorem claim6_amended (rows : List SigRow) (dtIdx : Bool) (thresholds : List ℚ)
    (horizons : List ℕ) (limit : ℕ) (c s pos : ℚ) (tgt : ℚ) (mt : ℕ) (mode : Mode)
    (wf : Bool) (folds : ℕ) :
    (foldSlicesOf rows (usesWalkForward wf dtIdx rows.length folds) folds ≠ [] ↔
      (wf = true ∧ dtIdx = true ∧ folds * 50 < rows.length ∧ 1 ≤ folds)) ∧
    (foldSlicesOf rows (usesWalkForward wf dtIdx rows.length folds) folds = [] →
      optimizeParams rows dtIdx thresholds horizons limit c s pos tgt mt mode wf folds =
        selectCandidate ((gridCells thresholds horizons).map
            (fun p => evalCellWhole rows limit c s pos mode dtIdx p.1 p.2))
          tgt mt (placeholderCand thresholds horizons)) ∧
    (foldSlicesOf rows (usesWalkForward wf dtIdx rows.length folds) folds ≠ [] →
      optimizeParams rows dtIdx thresholds horizons limit c s pos tgt mt mode wf folds =
        selectCandidate ((gridCells thresholds horizons).map
            (fun p => evalCellFolds
              (foldSlicesOf rows (usesWalkForward wf dtIdx rows.length folds) folds)
              limit c s pos mode dtIdx p.1 p.2))
          tgt mt (placeholderCand thresholds horizons)) := by
  refine ⟨?_, ?_, ?_⟩
  · unfold foldSlicesOf usesWalkForward
    constructor
    · intro h
      split_ifs at h with hg
      · simp only [Bool.and_eq_true, decide_eq_true_eq] at hg
        refine ⟨hg.1.1, hg.1.2, hg.2, ?_⟩
        rcases Nat.eq_zero_or_pos folds with rfl | hpos
        · simp at h
        · exact hpos
      · exact absurd rfl h
    · rintro ⟨h1, h2, h3, h4⟩
      rw [if_pos (by simp [h1, h2, h3])]
      simp only [ne_eq, List.map_eq_nil_iff, List.range_eq_nil]
      omega
  · intro h
    unfold optimizeParams optimizerCells
    rw [h]
    rfl
  · intro h
    have hne : (foldSlicesOf rows (usesWalkForward wf dtIdx rows.length folds)
        folds).isEmpty = false := by
      rcases hcase : foldSlicesOf rows (usesWalkForward wf dtIdx rows.length folds) folds
        with _ | ⟨a, l⟩
      · exact absurd hcase h
      · rfl
    unfold optimizeParams optimizerCells
    simp only [hne]
    rfl

/-- Witness for the amended C6: a plain (non-walk-forward) run evaluates
every cell over the whole history. -/
theorem claim6_amended_witness :
    foldSlicesOf rowsC2 (usesWalkForward false false rowsC2.length 3) 3 = [] ∧
    optimizeParams rowsC2 false [0.6] [1] 2 0 0 1 0.64 25 Mode.horizon false 3 =
      selectCandidate ((gridCells [0.6] [1]).map
          (fun p => evalCellWhole rowsC2 2 0 0 1 Mode.horizon false p.1 p.2))
        0.64 25 (placeholderCand [0.6] [1]) :=
  ⟨by decide,
    (claim6_amended rowsC2 false [0.6] [1] 2 0 0 1 0.64 25 Mode.horizon false 3).2.1
      (by decide)⟩

end Cortexa
